import Mathlib

/-!
Shallow embedding of the Uno turn engine in `src/game.rs` (`GameState`).

The card/deck/player collaborators (`card.rs`, `player.rs`) are not part of
the sources; their interfaces are modelled from the spec where a claim needs
them.  Machine integers: `to_draw` is a Rust `u8`, modelled as a `Nat` that is
updated modulo `2^8`; the recycler compares pile lengths after a `len() as u8`
cast, modelled as `length % 256`.  Randomness (shuffling, random reinsertion)
is modelled by threading an explicit permutation function / position argument.
Rust panics (`unwrap` on `None`) are modelled by the step returning `none`.
-/

inductive Color where
  | red
  | yellow
  | green
  | blue
deriving DecidableEq, Repr

/-- Modelled from the spec: card taxonomy {Number, Skip, Reverse, DrawTwo,
Wild, DrawFour}; the Rust patterns `Card::Wild { color: _ }` and
`Card::DrawFour { color: _ }` show every variant carries a color field, and
`Number` additionally carries a rank. Equality is structural (type, color,
rank). -/
inductive Card where
  | number (color : Color) (rank : Nat)
  | skip (color : Color)
  | reverse (color : Color)
  | drawTwo (color : Color)
  | wild (color : Color)
  | drawFour (color : Color)
deriving DecidableEq, Repr

namespace Card

def color : Card → Color
  | .number c _ => c
  | .skip c => c
  | .reverse c => c
  | .drawTwo c => c
  | .wild c => c
  | .drawFour c => c

def tag : Card → Nat
  | .number _ _ => 0
  | .skip _ => 1
  | .reverse _ => 2
  | .drawTwo _ => 3
  | .wild _ => 4
  | .drawFour _ => 5

/-- Modelled from the spec: the external collaborator's compatibility rule —
"same color, same rank for Numbers, same type for action cards, or a
Wild/DrawFour which is always playable in the non-stacking case". -/
def can_play_on (c top : Card) : Bool :=
  match c with
  | .wild _ => true
  | .drawFour _ => true
  | _ =>
    c.color == top.color ||
      (c.tag == top.tag &&
        (match c, top with
         | .number _ r1, .number _ r2 => r1 == r2
         | _, _ => true))

end Card

/-- Modelled from the spec: `Deck::generate()` produces the fixed standard
multiset — 4 colors × (one 0, two each of 1–9, two each of Skip/Reverse/
DrawTwo) + 4 Wild + 4 DrawFour. Only its existence and size matter to the
claims (it is the supplementary deck appended by the degenerate recycler
branch). -/
def Deck.generate : List Card :=
  ([Color.red, Color.yellow, Color.green, Color.blue].flatMap fun col =>
    Card.number col 0 ::
      ((List.range 9).flatMap fun r =>
        [Card.number col (r + 1), Card.number col (r + 1)]) ++
      [Card.skip col, Card.skip col, Card.reverse col, Card.reverse col,
       Card.drawTwo col, Card.drawTwo col]) ++
  List.replicate 4 (Card.wild Color.red) ++
  List.replicate 4 (Card.drawFour Color.red)

inductive Direction where
  | clockwise
  | counterClockwise
deriving DecidableEq, Repr

inductive TurnResult where
  | played (card : Card)
  | drew
deriving DecidableEq, Repr

/-- `GameState::get_playable_hand` (game.rs lines 161–171): if `to_draw > 0`
and the top card is a DrawTwo or DrawFour, keep only cards equal to the top
card; otherwise keep the cards that `can_play_on` the top card. -/
def get_playable_hand (hand : List Card) (card : Card) (to_draw : Nat) :
    List Card :=
  if to_draw > 0 &&
      (match card with
       | Card.drawTwo _ => true
       | Card.drawFour _ => true
       | _ => false) then
    hand.filter (fun c => c == card)
  else
    hand.filter (fun c => c.can_play_on card)

/-- `GameState::contains_special_card` (game.rs lines 173–175): does the hand
contain a card equal to `card`. -/
def contains_special_card (hand : List Card) (card : Card) : Bool :=
  hand.any (fun c => c == card)

/-- `GameState::ensure_drawable_deck` (game.rs lines 177–196).  The Rust code
compares `deck.cards.len() as u8 >= to_draw` and `discard.len() as u8 >=
to_draw` (`to_draw` is already a `u8`), so both lengths are truncated modulo
256 before the comparison.  Branch 2 drains the whole discard pile (its top
included) into the draw pile and shuffles; branch 3 drops the whole discard
pile, appends a freshly generated deck and shuffles.  `σ` is the shuffle
permutation. -/
def ensure_drawable_deck (σ : List Card → List Card)
    (deck discard : List Card) (to_draw : Nat) : List Card × List Card :=
  if deck.length % 256 ≥ to_draw then
    (deck, discard)
  else if discard.length % 256 ≥ to_draw then
    (σ (deck ++ discard), [])
  else
    (σ (deck ++ Deck.generate), [])

/-- `GameState::next_player` (game.rs lines 198–217). -/
def next_player (current_player : Nat) (direction : Direction)
    (num_players : Nat) : Nat :=
  match direction with
  | .clockwise => (current_player + 1) % num_players
  | .counterClockwise =>
    if current_player == 0 then num_players - 1 else current_player - 1

/-- The per-turn notifications the engine issues through the player
capability.  `game.rs` only ever calls `observe_turn_skip`: with `some cards`
after a forced draw or an ordinary/penalty draw, with `none` on the player
whose turn a Skip consumed. -/
inductive Event where
  | observeTurnSkip (player : Nat) (cards : Option (List Card))
deriving DecidableEq, Repr

/-- The mutable fields of `GameState` (game.rs lines 6–13).  The trait-object
player capabilities are external; only their hands live in the state, in
roster order. -/
structure GameState where
  deck : List Card
  discard : List Card
  hands : List (List Card)
  current_player : Nat
  direction : Direction
  to_draw : Nat
deriving DecidableEq, Repr

/-- Result of one iteration of the turn loop: either the loop continues, or
the acting player's hand is empty and `game.rs` prints the winner and exits
the process (modelled as `won`). -/
inductive StepResult where
  | cont (s : GameState) (events : List Event)
  | won (winner : Nat) (s : GameState) (events : List Event)
deriving DecidableEq, Repr

def StepResult.state : StepResult → GameState
  | .cont s _ => s
  | .won _ s _ => s

/-- One iteration of the turn loop in `GameState::start` (game.rs lines
73–158).  `σ` is the shuffle permutation used by the recycler;
`execute_turn p playable` is player `p`'s decision on the filtered hand
(the `Player::execute_turn` capability).  A Rust panic — `players.get_mut
(..).unwrap()`, `discard.last().unwrap()` on an empty discard pile, or
`position(..).unwrap()` when the played card is absent from the hand — is
modelled as `none`. -/
def turnStep (σ : List Card → List Card)
    (execute_turn : Nat → List Card → TurnResult) (s : GameState) :
    Option StepResult :=
  let dd := ensure_drawable_deck σ s.deck s.discard s.to_draw
  let deck1 := dd.1
  let discard1 := dd.2
  let cur := next_player s.current_player s.direction s.hands.length
  match s.hands.get? cur with
  | none => none
  | some hand =>
    match discard1.getLast? with
    | none => none
    | some top =>
      let playable := get_playable_hand hand top s.to_draw
      if s.to_draw > 0 && !contains_special_card playable top then
        let drawn := deck1.take s.to_draw
        some (StepResult.cont
          { deck := deck1.drop s.to_draw, discard := discard1,
            hands := s.hands.set cur (hand ++ drawn),
            current_player := cur, direction := s.direction, to_draw := 0 }
          [Event.observeTurnSkip cur (some drawn)])
      else
        match execute_turn cur playable with
        | TurnResult.played card =>
          match hand.findIdx? (fun c => c == card) with
          | none => none
          | some i =>
            let hand2 := hand.eraseIdx i
            let discard2 := discard1 ++ [card]
            match card with
            | Card.skip _ =>
              let cur2 := next_player cur s.direction s.hands.length
              some (StepResult.cont
                { deck := deck1, discard := discard2,
                  hands := s.hands.set cur hand2,
                  current_player := cur2, direction := s.direction,
                  to_draw := s.to_draw }
                [Event.observeTurnSkip cur2 none])
            | _ =>
              let dir2 :=
                match card with
                | Card.reverse _ =>
                  match s.direction with
                  | Direction.clockwise => Direction.counterClockwise
                  | Direction.counterClockwise => Direction.clockwise
                | _ => s.direction
              let td2 :=
                match card with
                | Card.drawTwo _ => (s.to_draw + 2) % 256
                | Card.drawFour _ => (s.to_draw + 4) % 256
                | _ => s.to_draw
              let s2 : GameState :=
                { deck := deck1, discard := discard2,
                  hands := s.hands.set cur hand2,
                  current_player := cur, direction := dir2, to_draw := td2 }
              if hand2.isEmpty then some (StepResult.won cur s2 [])
              else some (StepResult.cont s2 [])
        | TurnResult.drew =>
          let n := if s.to_draw == 0 then 1 else s.to_draw
          let drawn := deck1.take n
          let hand2 := hand ++ drawn
          let s2 : GameState :=
            { deck := deck1.drop n, discard := discard1,
              hands := s.hands.set cur hand2,
              current_player := cur, direction := s.direction, to_draw := 0 }
          if hand2.isEmpty then
            some (StepResult.won cur s2 [Event.observeTurnSkip cur (some drawn)])
          else
            some (StepResult.cont s2 [Event.observeTurnSkip cur (some drawn)])

/-- Dealing in `GameState::start` (game.rs lines 49–53): every player draws 7
cards from the pile into their hand, in roster order. -/
def dealHands : Nat → List Card → List Card × List (List Card)
  | 0, deck => (deck, [])
  | n + 1, deck =>
    let h := deck.take 7
    let r := dealHands n (deck.drop 7)
    (r.1, h :: r.2)

/-- One iteration of the discard-seeding loop in `GameState::start` (game.rs
lines 55–71): draw the top card; a Wild or DrawFour is reinserted at a random
position (modelled by `pos`, clamped to the pile) and the loop goes on
(`false`); anything else is pushed onto the discard pile and the loop stops
(`true`).  An empty pile means `draw().unwrap()` panics (`none`). -/
def seedStep (pos : Nat) (deck discard : List Card) :
    Option (List Card × List Card × Bool) :=
  match deck with
  | [] => none
  | c :: rest =>
    match c with
    | Card.wild _ => some (rest.insertIdx (min pos rest.length) c, discard, false)
    | Card.drawFour _ => some (rest.insertIdx (min pos rest.length) c, discard, false)
    | _ => some (rest, discard ++ [c], true)

/-- Total number of cards in a state: draw pile + discard pile + all hands. -/
def GameState.cardCount (s : GameState) : Nat :=
  s.deck.length + s.discard.length + (s.hands.map List.length).sum

/-- Helper: is the card a DrawTwo or DrawFour (the `matches!` test in
`get_playable_hand`). -/
def Card.isStackCard : Card → Bool
  | .drawTwo _ => true
  | .drawFour _ => true
  | _ => false

/-- C3: a card is in the playable hand iff it is in the hand and — when
`pending_draw > 0` and the top card is a DrawTwo or DrawFour — it equals the
top card, and otherwise it can be played on the top card. -/
theorem get_playable_hand_mem (hand : List Card) (top : Card) (td : Nat)
    (c : Card) :
    c ∈ get_playable_hand hand top td ↔
      c ∈ hand ∧
        (if 0 < td ∧ top.isStackCard = true then c = top
         else c.can_play_on top = true) := by
  by_cases htd : 0 < td
  · cases top <;>
      simp [get_playable_hand, Card.isStackCard, htd, List.mem_filter,
        beq_iff_eq]
  · have h0 : td = 0 := by omega
    subst h0
    cases top <;>
      simp [get_playable_hand, Card.isStackCard, List.mem_filter]

/-- C6 counterexample: with a draw pile of 256 cards and `pending_draw = 1`,
the draw pile holds at least `pending_draw` cards, yet `ensure_drawable_deck`
is not a no-op — the `len() as u8` cast makes the sufficiency test see
`256 % 256 = 0`, so the discard pile is recycled. -/
theorem ensure_drawable_deck_not_noop_at_256 :
    (List.replicate 256 (Card.number Color.red 5)).length ≥ 1 ∧
    ensure_drawable_deck id (List.replicate 256 (Card.number Color.red 5))
        [Card.number Color.blue 3] 1 ≠
      (List.replicate 256 (Card.number Color.red 5),
       [Card.number Color.blue 3]) := by
  have heval : ensure_drawable_deck id
      (List.replicate 256 (Card.number Color.red 5))
      [Card.number Color.blue 3] 1 =
      (List.replicate 256 (Card.number Color.red 5) ++
        [Card.number Color.blue 3], []) := by
    unfold ensure_drawable_deck
    rw [List.length_replicate]
    norm_num
  refine ⟨by rw [List.length_replicate]; omega, fun h => ?_⟩
  rw [heval] at h
  have h2 := congrArg Prod.snd h
  exact List.noConfusion h2

/-- C6 amended: `ensure_drawable_deck` follows the claimed case order with
both pile lengths truncated modulo 256 (`len() as u8`): if the truncated
draw-pile length is at least `pending_draw` it changes nothing; else if the
truncated discard-pile length is at least `pending_draw` the entire discard
pile is moved into the draw pile (leaving the discard empty) and the pile is
shuffled; else the discard pile is dropped, a brand-new generated deck is
appended to the draw pile, and the pile is shuffled. -/
theorem ensure_drawable_deck_case_order (σ : List Card → List Card)
    (deck discard : List Card) (to_draw : Nat) :
    (to_draw ≤ deck.length % 256 →
      ensure_drawable_deck σ deck discard to_draw = (deck, discard)) ∧
    (deck.length % 256 < to_draw → to_draw ≤ discard.length % 256 →
      ensure_drawable_deck σ deck discard to_draw =
        (σ (deck ++ discard), [])) ∧
    (deck.length % 256 < to_draw → discard.length % 256 < to_draw →
      ensure_drawable_deck σ deck discard to_draw =
        (σ (deck ++ Deck.generate), [])) := by
  unfold ensure_drawable_deck
  refine ⟨fun h1 => ?_, fun h1 h2 => ?_, fun h1 h2 => ?_⟩
  · rw [if_pos h1]
  · rw [if_neg (by omega), if_pos h2]
  · rw [if_neg (by omega), if_neg (by omega)]

/-- C6 amended, witness instance. -/
theorem ensure_drawable_deck_case_order_witness :
    ensure_drawable_deck id [Card.number Color.red 5] [] 0 =
      ([Card.number Color.red 5], []) :=
  (ensure_drawable_deck_case_order id [Card.number Color.red 5] [] 0).1
    (by decide)

/-- C10: the recycler's sufficiency tests compare pile lengths truncated to
8 bits — the no-op branch is taken when `deck.length % 256 ≥ to_draw`, the
discard branch when additionally `discard.length % 256 ≥ to_draw`; and there
is a configuration with a draw pile of at least 256 cards and
`0 < to_draw ≤ deck.length` (the pile suffices) where the function
nevertheless modifies the piles. -/
theorem ensure_drawable_deck_truncated_comparison :
    (∀ (σ : List Card → List Card) (deck discard : List Card) (td : Nat),
      td ≤ deck.length % 256 →
        ensure_drawable_deck σ deck discard td = (deck, discard)) ∧
    (∀ (σ : List Card → List Card) (deck discard : List Card) (td : Nat),
      deck.length % 256 < td → td ≤ discard.length % 256 →
        ensure_drawable_deck σ deck discard td = (σ (deck ++ discard), [])) ∧
    (∃ (deck discard : List Card) (td : Nat),
      256 ≤ deck.length ∧ 0 < td ∧ td ≤ deck.length ∧
        deck.length % 256 < td ∧
        ensure_drawable_deck id deck discard td ≠ (deck, discard)) := by
  refine ⟨?_, ?_, ?_⟩
  · intro σ deck discard td h1
    unfold ensure_drawable_deck
    rw [if_pos h1]
  · intro σ deck discard td h1 h2
    unfold ensure_drawable_deck
    rw [if_neg (by omega), if_pos h2]
  · have heval : ensure_drawable_deck id
        (List.replicate 256 (Card.number Color.green 1))
        [Card.number Color.red 2, Card.number Color.red 4] 2 =
        (List.replicate 256 (Card.number Color.green 1) ++
          [Card.number Color.red 2, Card.number Color.red 4], []) := by
      unfold ensure_drawable_deck
      rw [List.length_replicate]
      norm_num
    refine ⟨List.replicate 256 (Card.number Color.green 1),
      [Card.number Color.red 2, Card.number Color.red 4], 2,
      by rw [List.length_replicate], by omega,
      by rw [List.length_replicate]; omega,
      by rw [List.length_replicate]; omega, fun h => ?_⟩
    rw [heval] at h
    exact List.noConfusion (congrArg Prod.snd h)

/-- C10 witness instance. -/
theorem ensure_drawable_deck_truncated_comparison_witness :
    ensure_drawable_deck id [Card.number Color.red 7] [] 1 =
      ([Card.number Color.red 7], []) :=
  ensure_drawable_deck_truncated_comparison.1 id
    [Card.number Color.red 7] [] 1 (by decide)

/-- C1 failing run: player 0 holds only `Skip(red)` on top card `Number(red,
3)` and plays it — their hand becomes empty, yet the Skip branch of the loop
`continue`s past the win check (game.rs line 120 vs 153), so the step yields
`cont` (the loop keeps running, no winner recorded) instead of `won 0`. -/
theorem skip_play_bypasses_win_check :
    turnStep id (fun _ _ => TurnResult.played (Card.skip Color.red))
        { deck := [Card.number Color.green 7],
          discard := [Card.number Color.red 3],
          hands := [[Card.skip Color.red], [Card.number Color.red 5]],
          current_player := 1, direction := Direction.clockwise,
          to_draw := 0 } =
      some (StepResult.cont
        { deck := [Card.number Color.green 7],
          discard := [Card.number Color.red 3, Card.skip Color.red],
          hands := [[], [Card.number Color.red 5]],
          current_player := 1, direction := Direction.clockwise,
          to_draw := 0 }
        [Event.observeTurnSkip 1 none]) ∧
    (∀ w s e,
      turnStep id (fun _ _ => TurnResult.played (Card.skip Color.red))
          { deck := [Card.number Color.green 7],
            discard := [Card.number Color.red 3],
            hands := [[Card.skip Color.red], [Card.number Color.red 5]],
            current_player := 1, direction := Direction.clockwise,
            to_draw := 0 } ≠
        some (StepResult.won w s e)) := by
  refine ⟨by decide, fun w s e h => ?_⟩
  rw [show turnStep id (fun _ _ => TurnResult.played (Card.skip Color.red))
      { deck := [Card.number Color.green 7],
        discard := [Card.number Color.red 3],
        hands := [[Card.skip Color.red], [Card.number Color.red 5]],
        current_player := 1, direction := Direction.clockwise,
        to_draw := 0 } =
      some (StepResult.cont
        { deck := [Card.number Color.green 7],
          discard := [Card.number Color.red 3, Card.skip Color.red],
          hands := [[], [Card.number Color.red 5]],
          current_player := 1, direction := Direction.clockwise,
          to_draw := 0 }
        [Event.observeTurnSkip 1 none]) from by decide] at h
  exact StepResult.noConfusion (Option.some.inj h)

/-- C2 failing run: `to_draw = 2`, the draw pile has 1 card and the discard
pile 2, so the recycler's middle branch drains the whole discard pile; the
engine then reads `discard.last().unwrap()` (game.rs line 83) on the now
empty discard pile and panics — the step is `none`, the legality read does
not succeed. -/
theorem recycle_empties_discard_then_top_read_panics :
    (ensure_drawable_deck id [Card.number Color.green 7]
        [Card.drawTwo Color.red, Card.drawTwo Color.blue] 2).2 = [] ∧
    turnStep id (fun _ _ => TurnResult.drew)
        { deck := [Card.number Color.green 7],
          discard := [Card.drawTwo Color.red, Card.drawTwo Color.blue],
          hands := [[Card.number Color.red 1], [Card.number Color.blue 2]],
          current_player := 0, direction := Direction.clockwise,
          to_draw := 2 } = none := by
  exact ⟨by decide, by decide⟩

/-- C8: `next_player` maps Clockwise to `(cursor+1) mod roster_size` and
CounterClockwise to `cursor-1` with wrap-around to `roster_size-1` at 0; and
whenever a turn ends with a Skip notification (the Skip effect branch, the
only producer of an `observe_turn_skip` with no cards), the resulting cursor
is `next_player` applied twice in the current direction — the same function
as the normal advance. -/
theorem next_player_spec (cur n : Nat) (h : 0 < n) :
    next_player cur Direction.clockwise n = (cur + 1) % n ∧
    next_player cur Direction.counterClockwise n =
      (if cur = 0 then n - 1 else cur - 1) ∧
    ∀ (σ : List Card → List Card) (ex : Nat → List Card → TurnResult)
      (s s' : GameState) (p : Nat),
      turnStep σ ex s =
          some (StepResult.cont s' [Event.observeTurnSkip p none]) →
        s'.current_player =
          next_player
            (next_player s.current_player s.direction s.hands.length)
            s.direction s.hands.length := by
  refine ⟨rfl, by simp [next_player], ?_⟩
  intro σ ex s s' p hstep
  simp only [turnStep] at hstep
  split at hstep
  · exact Option.noConfusion hstep
  · split at hstep
    · exact Option.noConfusion hstep
    · split at hstep
      · simp at hstep
      · split at hstep
        · split at hstep
          · exact Option.noConfusion hstep
          · split at hstep
            · simp only [Option.some.injEq, StepResult.cont.injEq] at hstep
              obtain ⟨h1, _⟩ := hstep
              subst h1
              rfl
            · split at hstep <;> simp at hstep
        · split at hstep <;> split at hstep <;> simp at hstep

/-- C8 witness instance. -/
theorem next_player_spec_witness :
    next_player 0 Direction.clockwise 2 = (0 + 1) % 2 :=
  (next_player_spec 0 2 (by decide)).1

/-- C4: when `pending_draw > 0` and the playable subset contains no card
matching the discard top, the engine draws exactly `pending_draw` cards from
the pile into the acting player's hand, notifies that player with the drawn
cards (`observe_turn_skip(Some(..))`), resets `pending_draw` to 0 and ends
the turn; the result does not depend on the player's decision function — no
play decision is offered. -/
theorem forced_draw_spec (σ : List Card → List Card)
    (ex : Nat → List Card → TurnResult) (s : GameState)
    (hand : List Card) (top : Card)
    (hget : s.hands.get?
      (next_player s.current_player s.direction s.hands.length) = some hand)
    (htop : (ensure_drawable_deck σ s.deck s.discard s.to_draw).2.getLast? =
      some top)
    (hpos : 0 < s.to_draw)
    (hcs : contains_special_card (get_playable_hand hand top s.to_draw) top =
      false)
    (hlen : s.to_draw ≤
      (ensure_drawable_deck σ s.deck s.discard s.to_draw).1.length) :
    turnStep σ ex s =
      some (StepResult.cont
        { deck :=
            (ensure_drawable_deck σ s.deck s.discard s.to_draw).1.drop
              s.to_draw,
          discard := (ensure_drawable_deck σ s.deck s.discard s.to_draw).2,
          hands := s.hands.set
            (next_player s.current_player s.direction s.hands.length)
            (hand ++
              (ensure_drawable_deck σ s.deck s.discard s.to_draw).1.take
                s.to_draw),
          current_player :=
            next_player s.current_player s.direction s.hands.length,
          direction := s.direction, to_draw := 0 }
        [Event.observeTurnSkip
          (next_player s.current_player s.direction s.hands.length)
          (some ((ensure_drawable_deck σ s.deck s.discard s.to_draw).1.take
            s.to_draw))]) ∧
    ((ensure_drawable_deck σ s.deck s.discard s.to_draw).1.take
      s.to_draw).length = s.to_draw ∧
    ∀ ex' : Nat → List Card → TurnResult,
      turnStep σ ex' s = turnStep σ ex s := by
  have hcond : (decide (s.to_draw > 0) &&
      !contains_special_card (get_playable_hand hand top s.to_draw) top) =
      true := by
    rw [Bool.and_eq_true]
    exact ⟨decide_eq_true hpos, by rw [hcs]; rfl⟩
  have key : ∀ ex0 : Nat → List Card → TurnResult,
      turnStep σ ex0 s =
        some (StepResult.cont
          { deck :=
              (ensure_drawable_deck σ s.deck s.discard s.to_draw).1.drop
                s.to_draw,
            discard := (ensure_drawable_deck σ s.deck s.discard s.to_draw).2,
            hands := s.hands.set
              (next_player s.current_player s.direction s.hands.length)
              (hand ++
                (ensure_drawable_deck σ s.deck s.discard s.to_draw).1.take
                  s.to_draw),
            current_player :=
              next_player s.current_player s.direction s.hands.length,
            direction := s.direction, to_draw := 0 }
          [Event.observeTurnSkip
            (next_player s.current_player s.direction s.hands.length)
            (some ((ensure_drawable_deck σ s.deck s.discard
              s.to_draw).1.take s.to_draw))]) := by
    intro ex0
    simp only [turnStep, hget, htop, hcond]
    simp
  refine ⟨key ex, ?_, fun ex' => by rw [key ex', key ex]⟩
  rw [List.length_take]
  omega

/-- C4 witness instance: `pending_draw = 2`, top is a DrawTwo, and the hand
has no stacking card — the engine force-draws exactly 2 cards. -/
theorem forced_draw_spec_witness :
    turnStep id (fun _ _ => TurnResult.drew)
        { deck := [Card.number Color.red 1, Card.number Color.red 2],
          discard := [Card.drawTwo Color.red],
          hands := [[Card.number Color.blue 1]],
          current_player := 0, direction := Direction.clockwise,
          to_draw := 2 } =
      some (StepResult.cont
        { deck := [], discard := [Card.drawTwo Color.red],
          hands := [[Card.number Color.blue 1, Card.number Color.red 1,
                     Card.number Color.red 2]],
          current_player := 0, direction := Direction.clockwise,
          to_draw := 0 }
        [Event.observeTurnSkip 0
          (some [Card.number Color.red 1, Card.number Color.red 2])]) ∧
    ((ensure_drawable_deck id
      [Card.number Color.red 1, Card.number Color.red 2]
      [Card.drawTwo Color.red] 2).1.take 2).length = 2 :=
  ⟨(forced_draw_spec id (fun _ _ => TurnResult.drew)
      { deck := [Card.number Color.red 1, Card.number Color.red 2],
        discard := [Card.drawTwo Color.red],
        hands := [[Card.number Color.blue 1]],
        current_player := 0, direction := Direction.clockwise,
        to_draw := 2 } [Card.number Color.blue 1] (Card.drawTwo Color.red)
      rfl rfl (by decide) (by decide) (by decide)).1,
   (forced_draw_spec id (fun _ _ => TurnResult.drew)
      { deck := [Card.number Color.red 1, Card.number Color.red 2],
        discard := [Card.drawTwo Color.red],
        hands := [[Card.number Color.blue 1]],
        current_player := 0, direction := Direction.clockwise,
        to_draw := 2 } [Card.number Color.blue 1] (Card.drawTwo Color.red)
      rfl rfl (by decide) (by decide) (by decide)).2.1⟩

/-- C5: when the player's decision is Drew, the engine draws exactly 1 card
if `pending_draw == 0` and exactly `pending_draw` cards otherwise, appends
them to the acting player's hand, notifies the player with the drawn cards,
and resets `pending_draw` to 0. -/
theorem drew_spec (σ : List Card → List Card)
    (ex : Nat → List Card → TurnResult) (s : GameState)
    (hand : List Card) (top : Card)
    (hget : s.hands.get?
      (next_player s.current_player s.direction s.hands.length) = some hand)
    (htop : (ensure_drawable_deck σ s.deck s.discard s.to_draw).2.getLast? =
      some top)
    (hnf : s.to_draw = 0 ∨
      contains_special_card (get_playable_hand hand top s.to_draw) top =
        true)
    (hex : ex (next_player s.current_player s.direction s.hands.length)
      (get_playable_hand hand top s.to_draw) = TurnResult.drew)
    (hlen : (if s.to_draw == 0 then 1 else s.to_draw) ≤
      (ensure_drawable_deck σ s.deck s.discard s.to_draw).1.length) :
    turnStep σ ex s =
      some (StepResult.cont
        { deck :=
            (ensure_drawable_deck σ s.deck s.discard s.to_draw).1.drop
              (if s.to_draw == 0 then 1 else s.to_draw),
          discard := (ensure_drawable_deck σ s.deck s.discard s.to_draw).2,
          hands := s.hands.set
            (next_player s.current_player s.direction s.hands.length)
            (hand ++
              (ensure_drawable_deck σ s.deck s.discard s.to_draw).1.take
                (if s.to_draw == 0 then 1 else s.to_draw)),
          current_player :=
            next_player s.current_player s.direction s.hands.length,
          direction := s.direction, to_draw := 0 }
        [Event.observeTurnSkip
          (next_player s.current_player s.direction s.hands.length)
          (some ((ensure_drawable_deck σ s.deck s.discard s.to_draw).1.take
            (if s.to_draw == 0 then 1 else s.to_draw)))]) ∧
    ((ensure_drawable_deck σ s.deck s.discard s.to_draw).1.take
      (if s.to_draw == 0 then 1 else s.to_draw)).length =
      (if s.to_draw == 0 then 1 else s.to_draw) := by
  have hcond : (decide (s.to_draw > 0) &&
      !contains_special_card (get_playable_hand hand top s.to_draw) top) =
      false := by
    rcases hnf with h0 | hc
    · simp [h0]
    · simp [hc]
  have hlen' : ((ensure_drawable_deck σ s.deck s.discard s.to_draw).1.take
      (if s.to_draw == 0 then 1 else s.to_draw)).length =
      (if s.to_draw == 0 then 1 else s.to_draw) := by
    rw [List.length_take]
    exact Nat.min_eq_left hlen
  have hne : (hand ++
      (ensure_drawable_deck σ s.deck s.discard s.to_draw).1.take
        (if s.to_draw == 0 then 1 else s.to_draw)).isEmpty = false := by
    rw [List.isEmpty_eq_false_iff_exists_mem]
    have h1 : 0 < (if s.to_draw == 0 then 1 else s.to_draw) := by
      split
      · omega
      · rename_i hz
        simp only [beq_iff_eq] at hz
        omega
    rcases hand with _ | ⟨a, t⟩
    · have h2 : 0 <
          ((ensure_drawable_deck σ s.deck s.discard s.to_draw).1.take
            (if s.to_draw == 0 then 1 else s.to_draw)).length := by
        rw [hlen']
        exact h1
      rcases List.exists_mem_of_length_pos h2 with ⟨x, hx⟩
      exact ⟨x, by simpa using hx⟩
    · exact ⟨a, by simp⟩
  constructor
  · simp only [turnStep, hget, htop, hcond, hex, Bool.false_eq_true,
      if_false, hne]
  · exact hlen'

/-- C5 witness instance: `pending_draw = 0`, the player declines — exactly
one card is drawn into the hand. -/
theorem drew_spec_witness :
    turnStep id (fun _ _ => TurnResult.drew)
        { deck := [Card.number Color.red 1, Card.number Color.red 2],
          discard := [Card.number Color.red 3],
          hands := [[Card.number Color.blue 4]],
          current_player := 0, direction := Direction.clockwise,
          to_draw := 0 } =
      some (StepResult.cont
        { deck := [Card.number Color.red 2],
          discard := [Card.number Color.red 3],
          hands := [[Card.number Color.blue 4, Card.number Color.red 1]],
          current_player := 0, direction := Direction.clockwise,
          to_draw := 0 }
        [Event.observeTurnSkip 0 (some [Card.number Color.red 1])]) :=
  (drew_spec id (fun _ _ => TurnResult.drew)
    { deck := [Card.number Color.red 1, Card.number Color.red 2],
      discard := [Card.number Color.red 3],
      hands := [[Card.number Color.blue 4]],
      current_player := 0, direction := Direction.clockwise,
      to_draw := 0 } [Card.number Color.blue 4] (Card.number Color.red 3)
    rfl rfl (Or.inl rfl) rfl (by decide)).1

/-- C9: if the player's decision names a card absent from their actual hand,
the `position(..).unwrap()` in the Played branch panics — the step fails
(`none`); the engine never completes the turn with a different card. -/
theorem played_absent_card_fatal (σ : List Card → List Card)
    (ex : Nat → List Card → TurnResult) (s : GameState)
    (hand : List Card) (top card : Card)
    (hget : s.hands.get?
      (next_player s.current_player s.direction s.hands.length) = some hand)
    (htop : (ensure_drawable_deck σ s.deck s.discard s.to_draw).2.getLast? =
      some top)
    (hnf : s.to_draw = 0 ∨
      contains_special_card (get_playable_hand hand top s.to_draw) top =
        true)
    (hex : ex (next_player s.current_player s.direction s.hands.length)
      (get_playable_hand hand top s.to_draw) = TurnResult.played card)
    (habs : card ∉ hand) :
    turnStep σ ex s = none := by
  have hcond : (decide (s.to_draw > 0) &&
      !contains_special_card (get_playable_hand hand top s.to_draw) top) =
      false := by
    rcases hnf with h0 | hc
    · simp [h0]
    · simp [hc]
  have hfind : hand.findIdx? (fun c => c == card) = none := by
    rw [List.findIdx?_eq_none_iff]
    intro x hx
    exact beq_eq_false_iff_ne.mpr (fun hxc => habs (hxc ▸ hx))
  simp only [turnStep, hget, htop, hcond, hex, hfind, Bool.false_eq_true,
    if_false]

/-- C9 witness instance: the decision names `Number(blue,9)`, absent from the
hand `[Number(red,1)]` — the step is fatal. -/
theorem played_absent_card_fatal_witness :
    turnStep id (fun _ _ => TurnResult.played (Card.number Color.blue 9))
        { deck := [Card.number Color.green 7],
          discard := [Card.number Color.red 3],
          hands := [[Card.number Color.red 1]],
          current_player := 0, direction := Direction.clockwise,
          to_draw := 0 } = none :=
  played_absent_card_fatal id
    (fun _ _ => TurnResult.played (Card.number Color.blue 9))
    { deck := [Card.number Color.green 7],
      discard := [Card.number Color.red 3],
      hands := [[Card.number Color.red 1]],
      current_player := 0, direction := Direction.clockwise,
      to_draw := 0 } [Card.number Color.red 1] (Card.number Color.red 3)
    (Card.number Color.blue 9) rfl rfl (Or.inl rfl) rfl (by decide)

lemma length_take_add_length_drop (l : List Card) (n : Nat) :
    (l.take n).length + (l.drop n).length = l.length := by
  rw [← List.length_append, List.take_append_drop]

lemma sum_map_length_set (hs : List (List Card)) (i : Nat)
    (h old : List Card) (hget : hs.get? i = some old) :
    ((hs.set i h).map List.length).sum + old.length =
      (hs.map List.length).sum + h.length := by
  induction hs generalizing i with
  | nil => simp at hget
  | cons a t ih =>
    cases i with
    | zero =>
      rw [List.get?_cons_zero] at hget
      injection hget with hh
      subst hh
      simp [List.set]
      omega
    | succ n =>
      rw [List.get?_cons_succ] at hget
      have := ih n hget
      simp only [List.set, List.map_cons, List.sum_cons]
      omega

/-- C7: card conservation.  Dealing, discard seeding, non-degenerate
recycling (shuffle is a permutation, so only length preservation of `σ` is
assumed), and every completed turn step whose recycle stayed out of the
degenerate branch preserve `|draw pile| + |discard pile| + Σ|hands|`. -/
theorem card_conservation :
    (∀ (n : Nat) (deck : List Card),
      (dealHands n deck).1.length +
        ((dealHands n deck).2.map List.length).sum = deck.length) ∧
    (∀ (pos : Nat) (deck discard : List Card)
        (out : List Card × List Card × Bool),
      seedStep pos deck discard = some out →
        out.1.length + out.2.1.length = deck.length + discard.length) ∧
    (∀ (σ : List Card → List Card) (deck discard : List Card) (td : Nat),
      (∀ l, (σ l).length = l.length) →
      (td ≤ deck.length % 256 ∨ td ≤ discard.length % 256) →
        (ensure_drawable_deck σ deck discard td).1.length +
          (ensure_drawable_deck σ deck discard td).2.length =
          deck.length + discard.length) ∧
    (∀ (σ : List Card → List Card) (ex : Nat → List Card → TurnResult)
        (s : GameState) (r : StepResult),
      (∀ l, (σ l).length = l.length) →
      (s.to_draw ≤ s.deck.length % 256 ∨
        s.to_draw ≤ s.discard.length % 256) →
      turnStep σ ex s = some r →
        r.state.cardCount = s.cardCount) := by
  have hens : ∀ (σ : List Card → List Card) (deck discard : List Card)
      (td : Nat), (∀ l, (σ l).length = l.length) →
      (td ≤ deck.length % 256 ∨ td ≤ discard.length % 256) →
        (ensure_drawable_deck σ deck discard td).1.length +
          (ensure_drawable_deck σ deck discard td).2.length =
          deck.length + discard.length := by
    intro σ deck discard td hσ hnd
    unfold ensure_drawable_deck
    split
    · rfl
    · split
      · simp only [List.length_nil]
        rw [hσ, List.length_append]
        omega
      · omega
  refine ⟨?_, ?_, hens, ?_⟩
  · intro n
    induction n with
    | zero => intro deck; simp [dealHands]
    | succ m ih =>
      intro deck
      simp only [dealHands, List.map_cons, List.sum_cons]
      have h1 := ih (deck.drop 7)
      have h2 := length_take_add_length_drop deck 7
      omega
  · intro pos deck discard out hseed
    cases deck with
    | nil => exact Option.noConfusion hseed
    | cons c rest =>
      have hins : ∀ cc : Card,
          (rest.insertIdx (min pos rest.length) cc).length =
            rest.length + 1 := fun cc =>
        List.length_insertIdx _ _ (Nat.min_le_right _ _)
      cases c <;>
        simp only [seedStep, Option.some.injEq] at hseed <;>
        subst hseed <;>
        simp [hins] <;>
        omega
  · intro σ ex s r hσ hnd hstep
    have hdd := hens σ s.deck s.discard s.to_draw hσ hnd
    simp only [turnStep] at hstep
    split at hstep
    · exact Option.noConfusion hstep
    · rename_i hand hget
      have hcur : next_player s.current_player s.direction s.hands.length <
          s.hands.length := by
        by_contra hc
        rw [List.get?_eq_none.mpr (Nat.le_of_not_lt hc)] at hget
        exact Option.noConfusion hget
      split at hstep
      · exact Option.noConfusion hstep
      · rename_i top htop
        split at hstep
        · injection hstep with hr
          subst hr
          have hset := sum_map_length_set s.hands
            (next_player s.current_player s.direction s.hands.length)
            (hand ++
              (ensure_drawable_deck σ s.deck s.discard s.to_draw).1.take
                s.to_draw) hand hget
          have htd := length_take_add_length_drop
            (ensure_drawable_deck σ s.deck s.discard s.to_draw).1 s.to_draw
          simp only [StepResult.state, GameState.cardCount,
            List.length_append] at *
          omega
        · split at hstep
          · rename_i card hex
            split at hstep
            · exact Option.noConfusion hstep
            · rename_i i hfind
              have hi : i < hand.length :=
                (List.findIdx?_eq_some_iff_findIdx_eq.mp hfind).1
              have herase : (hand.eraseIdx i).length = hand.length - 1 := by
                rw [List.length_eraseIdx]
                simp [hi]
              have hset := sum_map_length_set s.hands
                (next_player s.current_player s.direction s.hands.length)
                (hand.eraseIdx i) hand hget
              split at hstep
              · injection hstep with hr
                subst hr
                simp only [StepResult.state, GameState.cardCount,
                  List.length_append, List.length_cons,
                  List.length_nil] at *
                omega
              · split at hstep <;>
                  [skip; skip] <;>
                  · injection hstep with hr
                    subst hr
                    simp only [StepResult.state, GameState.cardCount,
                      List.length_append, List.length_cons,
                      List.length_nil] at *
                    omega
          · rename_i hex
            have hset1 := sum_map_length_set s.hands
              (next_player s.current_player s.direction s.hands.length)
              (hand ++
                (ensure_drawable_deck σ s.deck s.discard s.to_draw).1.take 1)
              hand hget
            have hsetT := sum_map_length_set s.hands
              (next_player s.current_player s.direction s.hands.length)
              (hand ++
                (ensure_drawable_deck σ s.deck s.discard s.to_draw).1.take
                  s.to_draw) hand hget
            have htd1 := length_take_add_length_drop
              (ensure_drawable_deck σ s.deck s.discard s.to_draw).1 1
            have htdT := length_take_add_length_drop
              (ensure_drawable_deck σ s.deck s.discard s.to_draw).1
              s.to_draw
            split at hstep <;>
              split at hstep <;>
                (injection hstep with hr
                 subst hr
                 simp only [StepResult.state, GameState.cardCount,
                   List.length_append] at *
                 omega)

/-- C7 witness instance: an ordinary draw turn preserves the total card
count. -/
theorem card_conservation_witness :
    (StepResult.cont
      { deck := [Card.number Color.red 2],
        discard := [Card.number Color.red 3],
        hands := [[Card.number Color.blue 4, Card.number Color.red 1]],
        current_player := 0, direction := Direction.clockwise,
        to_draw := 0 }
      [Event.observeTurnSkip 0 (some [Card.number Color.red 1])]).state.cardCount =
    GameState.cardCount
      { deck := [Card.number Color.red 1, Card.number Color.red 2],
        discard := [Card.number Color.red 3],
        hands := [[Card.number Color.blue 4]],
        current_player := 0, direction := Direction.clockwise,
        to_draw := 0 } :=
  card_conservation.2.2.2 id (fun _ _ => TurnResult.drew)
    { deck := [Card.number Color.red 1, Card.number Color.red 2],
      discard := [Card.number Color.red 3],
      hands := [[Card.number Color.blue 4]],
      current_player := 0, direction := Direction.clockwise,
      to_draw := 0 }
    (StepResult.cont
      { deck := [Card.number Color.red 2],
        discard := [Card.number Color.red 3],
        hands := [[Card.number Color.blue 4, Card.number Color.red 1]],
        current_player := 0, direction := Direction.clockwise,
        to_draw := 0 }
      [Event.observeTurnSkip 0 (some [Card.number Color.red 1])])
    (fun _ => rfl) (Or.inl (Nat.zero_le _)) (by decide)
